import Mathlib

/-!
Verification development for the fb-ads-generator repository.

The repository exposes two Next.js POST routes:
  * a generation route (`src/unnamed/part_000`, symbol `POST (generate)`)
    with helpers `buildPrompt` and `scrapePage`;
  * a translation route
    (`src/hs-plus/hs-facebook-ads/src/app/api/translate/route.ts`).

This file gives a shallow embedding of both routes.  JavaScript/JSON
values are modelled by the inductive `Json` below; `JSON.parse` is
modelled by an executable fuel-based parser `Json.parse`; JavaScript
string `trim`, truthiness, `String(...)` coercion, property access,
`indexOf` / `lastIndexOf` / `slice` and `JSON.stringify(·, null, 2)` are
modelled by the `js*` helper functions.  The network (the page scrape
and the chat-completion call) is abstracted as an environment of
oracles, and each route is a pure function from (request body,
environment) to (HTTP result, record of the outbound calls it made).
-/

namespace FbAds

/-- A JSON value as produced by `JSON.parse`.  Numbers keep their source
lexeme: no claim in this development inspects a numeric value, and
keeping the lexeme avoids modelling IEEE-754 doubles. -/
inductive Json where
  | null
  | bool (b : Bool)
  | num (lexeme : String)
  | str (s : String)
  | arr (elems : List Json)
  | obj (fields : List (String × Json))
deriving Repr, Inhabited

/-- The ad-item record `{title, description, cta}` (file
`src/unnamed/part_000`, type `AdItem`). -/
structure AdItem where
  title : String
  description : String
  cta : String
deriving Repr, DecidableEq, Inhabited

/-! ## JavaScript `String.prototype.trim` -/

/-- The WhiteSpace / LineTerminator characters removed by the
ECMAScript `trim` (tab, LF, VT, FF, CR, space, NBSP, the Unicode
space separators, LS, PS, and the BOM). -/
def isJsTrimWs (c : Char) : Bool :=
  let n := c.toNat
  n = 0x9 ∨ n = 0xA ∨ n = 0xB ∨ n = 0xC ∨ n = 0xD ∨ n = 0x20 ∨
  n = 0xA0 ∨ n = 0x1680 ∨ (0x2000 ≤ n ∧ n ≤ 0x200A) ∨
  n = 0x2028 ∨ n = 0x2029 ∨ n = 0x202F ∨ n = 0x205F ∨ n = 0x3000 ∨
  n = 0xFEFF

/-- Left-trim of a character list. -/
def trimLeftL (l : List Char) : List Char := l.dropWhile isJsTrimWs

/-- Trim on both ends, on character lists. -/
def jsTrimL (l : List Char) : List Char :=
  ((trimLeftL l).reverse.dropWhile isJsTrimWs).reverse

/-- Model of JavaScript `s.trim()`. -/
def jsTrim (s : String) : String := String.mk (jsTrimL s.toList)

theorem dropWhile_head_false {p : Char → Bool} {l : List Char} {c : Char}
    {cs : List Char} (h : l.dropWhile p = c :: cs) : p c = false := by
  induction l with
  | nil => simp [List.dropWhile] at h
  | cons a as ih =>
    by_cases hp : p a
    · exact ih (by simpa [List.dropWhile, hp] using h)
    · simp only [List.dropWhile, hp] at h
      cases h
      simpa using hp

theorem dropWhile_exists_append (p : Char → Bool) (l : List Char) :
    ∃ t, t ++ l.dropWhile p = l := by
  induction l with
  | nil => exact ⟨[], rfl⟩
  | cons a as ih =>
    by_cases hp : p a
    · obtain ⟨t, ht⟩ := ih
      exact ⟨a :: t, by simp [List.dropWhile, hp, ht]⟩
    · exact ⟨[], by simp [List.dropWhile, hp]⟩

theorem dropWhile_self_of_head {p : Char → Bool} {l : List Char}
    (h : ∀ c cs, l = c :: cs → p c = false) : l.dropWhile p = l := by
  cases l with
  | nil => rfl
  | cons a as => simp [List.dropWhile, h a as rfl]

theorem dropWhile_idem (p : Char → Bool) (l : List Char) :
    (l.dropWhile p).dropWhile p = l.dropWhile p := by
  apply dropWhile_self_of_head
  intro c cs h
  exact dropWhile_head_false h

/-- `jsTrim` output starts with a non-whitespace character (or is empty). -/
theorem jsTrimL_head_false {l : List Char} {c : Char} {cs : List Char}
    (h : jsTrimL l = c :: cs) : isJsTrimWs c = false := by
  unfold jsTrimL at h
  obtain ⟨t, ht⟩ := dropWhile_exists_append isJsTrimWs (trimLeftL l).reverse
  -- the reversed right-trim is a suffix of `(trimLeftL l).reverse`,
  -- so its reverse is a prefix of `trimLeftL l`
  have hpre : trimLeftL l =
      ((trimLeftL l).reverse.dropWhile isJsTrimWs).reverse ++ t.reverse := by
    have := congrArg List.reverse ht
    simpa [List.reverse_append] using this.symm
  rw [h] at hpre
  have : trimLeftL l = c :: (cs ++ t.reverse) := by simpa using hpre
  exact dropWhile_head_false (l := l) (by simpa [trimLeftL] using this)

theorem jsTrimL_idem (l : List Char) : jsTrimL (jsTrimL l) = jsTrimL l := by
  have h1 : trimLeftL (jsTrimL l) = jsTrimL l := by
    apply dropWhile_self_of_head
    intro c cs h
    exact jsTrimL_head_false (l := l) (by simpa using h)
  unfold jsTrimL at h1 ⊢
  rw [show trimLeftL (((trimLeftL l).reverse.dropWhile isJsTrimWs).reverse)
        = ((trimLeftL l).reverse.dropWhile isJsTrimWs).reverse from h1]
  rw [List.reverse_reverse, dropWhile_idem]

/-- JavaScript `trim` is idempotent. -/
theorem jsTrim_idem (s : String) : jsTrim (jsTrim s) = jsTrim s := by
  unfold jsTrim
  have : (String.mk (jsTrimL s.toList)).toList = jsTrimL s.toList := rfl
  rw [this, jsTrimL_idem]

/-! ## A model of `JSON.parse`

A fuel-based recursive-descent parser for the ECMAScript JSON grammar:
optional whitespace (space, tab, LF, CR) around tokens, objects, arrays,
double-quoted strings with the standard escapes, `true`/`false`/`null`,
and numbers (whose lexeme is kept verbatim). -/

/-- Insignificant whitespace in the JSON grammar. -/
def jsonWsChar (c : Char) : Bool := c = ' ' ∨ c = '\t' ∨ c = '\n' ∨ c = '\r'

def skipWs (l : List Char) : List Char := l.dropWhile jsonWsChar

def obrace : Char := Char.ofNat 123

def cbrace : Char := Char.ofNat 125

def hexVal (c : Char) : Option Nat :=
  if '0' ≤ c ∧ c ≤ '9' then some (c.toNat - '0'.toNat)
  else if 'a' ≤ c ∧ c ≤ 'f' then some (c.toNat - 'a'.toNat + 10)
  else if 'A' ≤ c ∧ c ≤ 'F' then some (c.toNat - 'A'.toNat + 10)
  else none

/-- Body of a JSON string, after the opening quote.  `\uXXXX` escapes
combine surrogate pairs into one scalar; a lone surrogate (not
representable in a `Char`) becomes U+FFFD. -/
def parseStrBody (fuel : Nat) (acc : List Char) (l : List Char) :
    Option (String × List Char) :=
  match fuel with
  | 0 => none
  | f + 1 =>
    match l with
    | [] => none
    | c :: cs =>
      if c = '"' then some (String.mk acc.reverse, cs)
      else if c = '\\' then
        match cs with
        | [] => none
        | e :: cs2 =>
          if e = '"' ∨ e = '\\' ∨ e = '/' then parseStrBody f (e :: acc) cs2
          else if e = 'b' then parseStrBody f (Char.ofNat 0x8 :: acc) cs2
          else if e = 'f' then parseStrBody f (Char.ofNat 0xC :: acc) cs2
          else if e = 'n' then parseStrBody f ('\n' :: acc) cs2
          else if e = 'r' then parseStrBody f ('\r' :: acc) cs2
          else if e = 't' then parseStrBody f ('\t' :: acc) cs2
          else if e = 'u' then
            match cs2 with
            | a :: b :: c2 :: d :: cs3 =>
              match hexVal a, hexVal b, hexVal c2, hexVal d with
              | some ha, some hb, some hc, some hd =>
                let n := ((ha * 16 + hb) * 16 + hc) * 16 + hd
                if 0xD800 ≤ n ∧ n ≤ 0xDBFF then
                  match cs3 with
                  | '\\' :: 'u' :: a2 :: b2 :: c3 :: d2 :: cs4 =>
                    match hexVal a2, hexVal b2, hexVal c3, hexVal d2 with
                    | some ha2, some hb2, some hc2, some hd2 =>
                      let n2 := ((ha2 * 16 + hb2) * 16 + hc2) * 16 + hd2
                      if 0xDC00 ≤ n2 ∧ n2 ≤ 0xDFFF then
                        parseStrBody f
                          (Char.ofNat (0x10000 + (n - 0xD800) * 0x400 + (n2 - 0xDC00)) :: acc) cs4
                      else parseStrBody f (Char.ofNat 0xFFFD :: acc) cs3
                    | _, _, _, _ => parseStrBody f (Char.ofNat 0xFFFD :: acc) cs3
                  | _ => parseStrBody f (Char.ofNat 0xFFFD :: acc) cs3
                else if 0xDC00 ≤ n ∧ n ≤ 0xDFFF then
                  parseStrBody f (Char.ofNat 0xFFFD :: acc) cs3
                else parseStrBody f (Char.ofNat n :: acc) cs3
              | _, _, _, _ => none
            | _ => none
          else none
      else if c.toNat < 0x20 then none
      else parseStrBody f (c :: acc) cs

def isDigitChar (c : Char) : Bool := '0' ≤ c ∧ c ≤ '9'

def spanDigits (l : List Char) : List Char × List Char :=
  (l.takeWhile isDigitChar, l.dropWhile isDigitChar)

/-- Optional exponent part of a JSON number; `acc` is the lexeme so far. -/
def lexExpPart (acc : List Char) (l : List Char) : Option (List Char × List Char) :=
  match l with
  | [] => some (acc, l)
  | e :: rest =>
    if e = 'e' ∨ e = 'E' then
      let signRest : List Char × List Char :=
        match rest with
        | s :: r2 => if s = '+' ∨ s = '-' then ([s], r2) else ([], rest)
        | [] => ([], rest)
      let ds := spanDigits signRest.2
      if ds.1 = [] then none else some (acc ++ e :: signRest.1 ++ ds.1, ds.2)
    else some (acc, l)

/-- Optional fraction, then optional exponent. -/
def lexFracExp (intPart : List Char) (l : List Char) : Option (List Char × List Char) :=
  match l with
  | '.' :: rest =>
    let ds := spanDigits rest
    if ds.1 = [] then none else lexExpPart (intPart ++ '.' :: ds.1) ds.2
  | _ => lexExpPart intPart l

/-- Lexes a JSON number (`-?(0|[1-9][0-9]*)(\.[0-9]+)?([eE][+-]?[0-9]+)?`),
returning its lexeme. -/
def lexNumber (l : List Char) : Option (String × List Char) :=
  let signBody : List Char × List Char :=
    match l with
    | '-' :: r => (['-'], r)
    | _ => ([], l)
  match signBody.2 with
  | [] => none
  | '0' :: r =>
    match lexFracExp (signBody.1 ++ ['0']) r with
    | some (cs, rest) => some (String.mk cs, rest)
    | none => none
  | c :: _ =>
    if isDigitChar c then
      let ds := spanDigits signBody.2
      match lexFracExp (signBody.1 ++ ds.1) ds.2 with
      | some (cs, rest) => some (String.mk cs, rest)
      | none => none
    else none

/-- Strips an expected keyword tail (`rue`, `alse`, `ull`). -/
def stripLit (pat : List Char) (l : List Char) : Option (List Char) :=
  if l.take pat.length = pat then some (l.drop pat.length) else none

mutual

def parseVal (fuel : Nat) (l : List Char) : Option (Json × List Char) :=
  match fuel with
  | 0 => none
  | f + 1 =>
    match skipWs l with
    | [] => none
    | c :: cs =>
      if c = obrace then
        match skipWs cs with
        | [] => none
        | d :: ds => if d = cbrace then some (Json.obj [], ds) else parseObjRest f [] (d :: ds)
      else if c = '[' then
        match skipWs cs with
        | [] => none
        | d :: ds => if d = ']' then some (Json.arr [], ds) else parseArrRest f [] (d :: ds)
      else if c = '"' then
        match parseStrBody (cs.length + 1) [] cs with
        | some (s, rest) => some (Json.str s, rest)
        | none => none
      else if c = 't' then
        match stripLit ['r', 'u', 'e'] cs with
        | some rest => some (Json.bool true, rest)
        | none => none
      else if c = 'f' then
        match stripLit ['a', 'l', 's', 'e'] cs with
        | some rest => some (Json.bool false, rest)
        | none => none
      else if c = 'n' then
        match stripLit ['u', 'l', 'l'] cs with
        | some rest => some (Json.null, rest)
        | none => none
      else
        match lexNumber (c :: cs) with
        | some (lex, rest) => some (Json.num lex, rest)
        | none => none

def parseArrRest (fuel : Nat) (acc : List Json) (l : List Char) :
    Option (Json × List Char) :=
  match fuel with
  | 0 => none
  | f + 1 =>
    match parseVal f l with
    | none => none
    | some (v, rest) =>
      match skipWs rest with
      | [] => none
      | c :: cs =>
        if c = ',' then parseArrRest f (v :: acc) cs
        else if c = ']' then some (Json.arr (v :: acc).reverse, cs)
        else none

def parseObjRest (fuel : Nat) (acc : List (String × Json)) (l : List Char) :
    Option (Json × List Char) :=
  match fuel with
  | 0 => none
  | f + 1 =>
    match skipWs l with
    | [] => none
    | c :: cs =>
      if c = '"' then
        match parseStrBody (cs.length + 1) [] cs with
        | none => none
        | some (k, rest) =>
          match skipWs rest with
          | [] => none
          | d :: ds =>
            if d = ':' then
              match parseVal f ds with
              | none => none
              | some (v, rest2) =>
                match skipWs rest2 with
                | [] => none
                | e :: es =>
                  if e = ',' then parseObjRest f ((k, v) :: acc) es
                  else if e = cbrace then some (Json.obj ((k, v) :: acc).reverse, es)
                  else none
            else none
      else none

end

/-- Model of `JSON.parse`: `none` means the parse throws a `SyntaxError`.
The fuel `2 * length + 2` dominates the recursion depth, which consumes
at most two units of fuel per input character. -/
def Json.parse (s : String) : Option Json :=
  let l := s.toList
  match parseVal (2 * l.length + 2) l with
  | some (v, rest) => if skipWs rest = [] then some v else none
  | none => none

/-! ## JavaScript value semantics used by the routes -/

/-- Property lookup on a parsed object: `JSON.parse` keeps the last of
duplicate keys, so lookup returns the last binding. -/
def lookupLast (fields : List (String × Json)) (k : String) : Option Json :=
  fields.foldl (fun acc f => if f.1 = k then some f.2 else acc) none

/-- `v.k` for a parsed JSON value: `none` is `undefined`.  Only objects
carry (relevant) properties; the caller handles the `null` receiver,
whose property access throws. -/
def getProp : Json → String → Option Json
  | Json.obj fs, k => lookupLast fs k
  | _, _ => none

/-- Whether a number lexeme denotes `0` (or `-0`), the only falsy numbers
`JSON.parse` can produce. -/
def numLexemeIsZero (lex : String) : Bool :=
  let mant := lex.toList.takeWhile (fun c => c ≠ 'e' ∧ c ≠ 'E')
  mant.all (fun c => ¬ (isDigitChar c ∧ c ≠ '0'))

/-- JavaScript truthiness of a parsed JSON value. -/
def truthy : Json → Bool
  | Json.null => false
  | Json.bool b => b
  | Json.num lex => ¬ numLexemeIsZero lex
  | Json.str s => s ≠ ""
  | Json.arr _ => true
  | Json.obj _ => true

mutual

/-- JavaScript `String(v)` on a parsed JSON value.  Number lexemes are
kept verbatim (they agree with JS for the canonical lexemes relevant
here); arrays stringify via `Array.prototype.toString` (comma-join with
`null` rendered empty); objects give `[object Object]`. -/
def jsToString : Json → String
  | Json.null => "null"
  | Json.bool true => "true"
  | Json.bool false => "false"
  | Json.num lex => lex
  | Json.str s => s
  | Json.arr xs => arrToStr xs
  | Json.obj _ => "[object Object]"

def arrToStr : List Json → String
  | [] => ""
  | [Json.null] => ""
  | [x] => jsToString x
  | Json.null :: xs => "," ++ arrToStr xs
  | x :: xs => jsToString x ++ "," ++ arrToStr xs

end

/-- `v || ""` on an optionally-present property value. -/
def jsOrEmptyStr (v : Option Json) : Json :=
  match v with
  | some j => if truthy j then j else Json.str ""
  | none => Json.str ""

/-- `s || d` on an optional string (absent and `""` are falsy). -/
def jsOrStr (o : Option String) (d : String) : String :=
  match o with
  | some s => if s = "" then d else s
  | none => d

/-- `o` is falsy as a JS value (`undefined` or `""`). -/
def strFalsy (o : Option String) : Bool := o = none ∨ o = some ""

/-! ## The generation Normalizer
(`src/unnamed/part_000`, `POST (generate)`, lines 145-184) -/

/-- One step of
`{title: String(item.title || "").trim(), ...}` on an element of the
parsed array.  Property access on `null` throws a `TypeError`
(propagated to the route's outer catch), modelled by `Except.error`. -/
def coerceItem : Json → Except Unit AdItem
  | Json.null => Except.error ()
  | v =>
    Except.ok
      ⟨jsTrim (jsToString (jsOrEmptyStr (getProp v "title"))),
       jsTrim (jsToString (jsOrEmptyStr (getProp v "description"))),
       jsTrim (jsToString (jsOrEmptyStr (getProp v "cta")))⟩

/-- `.map(coerceItem)` with a thrown `TypeError` propagated. -/
def coerceAll : List Json → Except Unit (List AdItem)
  | [] => Except.ok []
  | x :: xs =>
    match coerceItem x with
    | Except.error e => Except.error e
    | Except.ok a =>
      match coerceAll xs with
      | Except.error e => Except.error e
      | Except.ok rest => Except.ok (a :: rest)

/-- `.filter((a) => a.title && a.description && a.cta)`: string
truthiness, i.e. all three fields non-empty. -/
def adTruthy (a : AdItem) : Bool :=
  a.title ≠ "" ∧ a.description ≠ "" ∧ a.cta ≠ ""

/-- Strict-parse tier of the generation route: `JSON.parse(content)`;
a parsed array is the ad list; else a truthy value with an array `ads`
property gives that array; anything else (including a parse error)
falls to the bracket-extraction fallback (`none`). -/
def strictParseAds (content : String) : Option (List Json) :=
  match Json.parse content with
  | none => none
  | some (Json.arr xs) => some xs
  | some j =>
    if truthy j then
      match getProp j "ads" with
      | some (Json.arr xs) => some xs
      | _ => none
    else none

/-- Fallback tier: substring from the first `[` to the last `]` of the
raw text, parsed; kept only if it parses as an array (a parse error is
swallowed by the inner empty catch, leaving `[]`). -/
def extractArrayFallback (content : String) : List Json :=
  let l := content.toList
  match l.findIdx? (· = '['), (l.reverse.findIdx? (· = ']')) with
  | some s, some i =>
    let e := l.length - 1 - i
    if s < e then
      match Json.parse (String.mk ((l.drop s).take (e + 1 - s))) with
      | some (Json.arr xs) => xs
      | _ => []
    else []
  | _, _ => []

/-- The two parse tiers combined: `none` is the
`"Neveljaven JSON iz OpenAI."` 502 return (which only happens inside
the catch block, i.e. after the strict tier failed). -/
def parsedAds (content : String) : Option (List Json) :=
  match strictParseAds content with
  | some xs => some xs
  | none =>
    match extractArrayFallback content with
    | [] => none
    | xs => some xs

/-! ## Prompt construction (`buildPrompt`, lines 19-72) -/

/-- `${x || ""}` interpolation of an optional string. -/
def orEmptyStr (o : Option String) : String :=
  match o with
  | some s => if s = "" then "" else s
  | none => ""

/-- The `sharedGuidelines` template literal of `buildPrompt`.  The file's
text is reproduced byte-for-byte (including its mojibake characters,
written as Unicode escapes). -/
def sharedGuidelines (productUrl : String) (title metaDescription : Option String)
    (language : String) : String :=
  "\nContext:\n- Product URL: " ++ productUrl ++
  "\n- Page title (h1): " ++ orEmptyStr title ++
  "\n- Meta description: " ++ orEmptyStr metaDescription ++
  "\n\nStyle guidelines (match these exactly):\n- Catchy title with an emoji at the start (e.g., âœ¨, â˜€ï¸, ğŸŒ§ï¸, âš¡)\n- Description must be short, scannable bullet-like lines with emojis\n- 3â€“5 lines in the description, no URLs and no CTA inside description\n\nRules:\n- title: max 9 words, start with an emoji\n- description: 3â€“6 kratkih vrstic, vsaka vrstica naj se zaÄne z emoji ali kratko frazo\n- cta: 1â€“5 besed; pick a CTA that BEST fits the page intent (infer from URL, h1, meta). It may include a leading emoji and/or a trailing down arrow (\"ğŸ‘‡\").\n- Äe gre za eâ€‘commerce produkt/koÅ¡arico/checkout: uporabi \"Kupi\" ali \"NaroÄi zdaj\"\n- Äe gre za informativno/landing stran ali blog: uporabi \"Izvedi veÄ\"\n- Äe gre za prijavo/registracijo: uporabi \"Prijavi se\"\n- Äe gre za kontakt/storitve/ponudbo: uporabi \"Kontaktiraj nas\" ali \"Zahtevaj ponudbo\"\nIMPORTANT: All text (title, description, CTA) MUST be written in " ++
  language ++
  ". Do not use any other language. Avoid untranslated words.\nVsak od treh oglasov naj ima CTA, ki je lahko razliÄen, vendar vedno skladen z namenom strani.\n\nReturn a JSON object with key \"ads\" whose value is an array of 3 items. Each item must include keys: title, description, cta. Example:\n\x7b\"ads\":[\n  \x7b\"title\":\"...\",\"description\":\"...\",\"cta\":\"<primeren CTA glede na namen>\"\x7d,\n  \x7b\"title\":\"...\",\"description\":\"...\",\"cta\":\"<primeren CTA glede na namen>\"\x7d,\n  \x7b\"title\":\"...\",\"description\":\"...\",\"cta\":\"<primeren CTA glede na namen>\"\x7d\n]\x7d"

/-- `customPrompt && customPrompt.trim().length > 0`. -/
def cpActive (customPrompt : Option String) : Bool :=
  match customPrompt with
  | some s => s ≠ "" ∧ (jsTrim s).length > 0
  | none => false

/-- The `buildPrompt` function (lines 19-72), template text verbatim. -/
def buildPrompt (productUrl : String) (title metaDescription customPrompt : Option String)
    (variantOf : Option AdItem) (language : String := "Slovenian") : String :=
  match variantOf with
  | some v =>
    let base := v.title ++ "\n\n" ++ v.description ++ "\n\nCTA: " ++ v.cta
    "You are a performance Facebook ads copywriter.\nGenerate EXACTLY 3 similar VARIATIONS to the given base ad, keeping the same CTA. Language: " ++
    language ++
    ".\n\nBase ad:\n" ++ base ++
    "\n\nGuidelines:\n- Keep the core benefits and style (emoji title + bullet-like short lines)\n- Avoid repeating the exact same phrases; rephrase creatively\n- Keep CTA identical to the base ad\x27s CTA\n- Respect the previous style rules (max title length, 3â€“6 short lines, no URLs)\n\nReturn a JSON object with key \"ads\" whose value is an array of items with keys: title, description, cta. Example:\n\x7b\"ads\":[\x7b\"title\":\"...\",\"description\":\"...\",\"cta\":\"" ++
    v.cta ++ "\"\x7d]]\x7d"
  | none =>
    if cpActive customPrompt then
      customPrompt.getD "" ++
      "\n\nGenerate EXACTLY 3 distinct Facebook ad variations in " ++ language ++
      ". Output strictly JSON.\n" ++
      sharedGuidelines productUrl title metaDescription language
    else
      "You are a performance Facebook ads copywriter.\nGenerate EXACTLY 3 distinct Facebook ad variations.\n Language: " ++
      language ++
      ". Be persuasive, concise, and compliant. Output JSON only.\n\n" ++
      sharedGuidelines productUrl title metaDescription language

/-! ## The generation route (`POST`, `src/unnamed/part_000`, lines 85-194) -/

/-- The request body `GenerateBody` with the fields at their declared
types (`url?`, `customPrompt?`, `language?`, `variantOf?`). -/
structure GenerateBody where
  url : Option String
  customPrompt : Option String
  language : Option String
  variantOf : Option AdItem
deriving Repr, DecidableEq

/-- Each `NextResponse.json(...)` return of the generation route, with
the body fields it carries. -/
inductive GenResult where
  /-- 200 `{source: {url, h1, meta, variant}, ads}` -/
  | ok (url : Option String) (h1 meta : Option String) (variant : Bool) (ads : List AdItem)
  /-- 400 `{error}` -/
  | badRequest (error : String)
  /-- 500 `{error}` -/
  | serverError (error : String)
  /-- 502 `{error, raw}` -/
  | parseFail (error : String) (raw : String)
  /-- 502 `{error, items}` -/
  | tooFew (error : String) (items : List AdItem)
deriving Repr, DecidableEq

def GenResult.status : GenResult → Nat
  | .ok .. => 200
  | .badRequest _ => 400
  | .serverError _ => 500
  | .parseFail .. => 502
  | .tooFew .. => 502

/-- The `ads` field of a 200 body, if any. -/
def GenResult.okAds? : GenResult → Option (List AdItem)
  | .ok _ _ _ _ ads => some ads
  | _ => none

/-- The network environment of one generation request: the page-scrape
oracle (`scrapePage`), the `OPENAI_API_KEY` env variable, and the
chat-completion oracle taking the system and user messages and
returning `choices?.[0]?.message?.content` (`none` when that optional
chain is absent).  `Except.error` is a thrown exception's message. -/
structure GenEnv where
  scrape : String → Except String (Option String × Option String)
  apiKey : Option String
  complete : String → String → Except String (Option String)

/-- The outbound calls a request actually issued. -/
structure GenCalls where
  scraped : Option String
  completed : Option (String × String)
deriving Repr, DecidableEq

/-- The system message of the completion call (line 111). -/
def genSystemMsg (language : Option String) : String :=
  "You output strictly the requested JSON and nothing else. Respond ONLY in " ++
  jsOrStr language "Slovenian" ++ ". Do not use any other language."

/-- `completion.choices?.[0]?.message?.content?.trim() || ""`. -/
def contentText (c : Option String) : String :=
  match c with
  | none => ""
  | some s => jsTrim s

/-- The route from the received completion text onwards (lines 147-189):
parse tiers, normalization, the minimum-of-3 check, and the 200 body. -/
def generateAfterContent (b : GenerateBody) (h1 meta : Option String)
    (content : String) : GenResult :=
  match parsedAds content with
  | none => GenResult.parseFail "Neveljaven JSON iz OpenAI." content
  | some ps =>
    match coerceAll (ps.take 3) with
    | Except.error _ =>
      GenResult.serverError "Cannot read properties of null (reading \x27title\x27)"
    | Except.ok items =>
      let normalized := items.filter adTruthy
      if normalized.length < 3 then
        GenResult.tooFew "Prejetih je premalo oglasov." normalized
      else
        GenResult.ok b.url h1 meta b.variantOf.isSome normalized

/-- The URL the route scrapes, when it scrapes (`if (url) ...`). -/
def genScrapedUrl (b : GenerateBody) : Option String :=
  if strFalsy b.url then none else some (b.url.getD "")

/-- The `buildPrompt(url || "", h1, meta, customPrompt, variantOf,
language || "Slovenian")` call (line 106). -/
def genPrompt (b : GenerateBody) (h1 meta : Option String) : String :=
  buildPrompt (jsOrStr b.url "") h1 meta b.customPrompt b.variantOf
    (jsOrStr b.language "Slovenian")

/-- The whole generation route, returning the HTTP result and the
outbound calls made.  The body is assumed already parsed (a `req.json()`
failure would give a 500 before any of the modelled logic runs). -/
def generatePOST (b : GenerateBody) (env : GenEnv) : GenResult × GenCalls :=
  if strFalsy b.url ∧ b.variantOf = none then
    (GenResult.badRequest "Zahteva mora vsebovati \x27url\x27 ali \x27variantOf\x27.",
     ⟨none, none⟩)
  else
    match (match genScrapedUrl b with
           | some u => env.scrape u
           | none => Except.ok (none, none)) with
    | Except.error msg => (GenResult.serverError msg, ⟨genScrapedUrl b, none⟩)
    | Except.ok (h1, meta) =>
      if strFalsy env.apiKey then
        (GenResult.serverError "Manjka okoljska spremenljivka OPENAI_API_KEY.",
         ⟨genScrapedUrl b, none⟩)
      else
        match env.complete (genSystemMsg b.language) (genPrompt b h1 meta) with
        | Except.error msg =>
          (GenResult.serverError msg,
           ⟨genScrapedUrl b, some (genSystemMsg b.language, genPrompt b h1 meta)⟩)
        | Except.ok c =>
          (generateAfterContent b h1 meta (contentText c),
           ⟨genScrapedUrl b, some (genSystemMsg b.language, genPrompt b h1 meta)⟩)

/-! ## `JSON.stringify(·, null, 2)` (used by the translation prompt) -/

def hexDigitChar (n : Nat) : Char :=
  if n < 10 then Char.ofNat ('0'.toNat + n) else Char.ofNat ('a'.toNat + n - 10)

/-- JSON string quoting as `JSON.stringify` performs it. -/
def quoteJsonStr (s : String) : String :=
  let esc : Char → List Char := fun c =>
    if c = '"' then ['\\', '"']
    else if c = '\\' then ['\\', '\\']
    else if c = Char.ofNat 0x8 then ['\\', 'b']
    else if c = '\t' then ['\\', 't']
    else if c = '\n' then ['\\', 'n']
    else if c = Char.ofNat 0xC then ['\\', 'f']
    else if c = '\r' then ['\\', 'r']
    else if c.toNat < 0x20 then
      ['\\', 'u', '0', '0', hexDigitChar (c.toNat / 16), hexDigitChar (c.toNat % 16)]
    else [c]
  "\"" ++ String.mk (s.toList.flatMap esc) ++ "\""

mutual

/-- `JSON.stringify(v, null, 2)` at current indentation `ind`. -/
def stringify2 (ind : String) : Json → String
  | Json.null => "null"
  | Json.bool true => "true"
  | Json.bool false => "false"
  | Json.num lex => lex
  | Json.str s => quoteJsonStr s
  | Json.arr [] => "[]"
  | Json.arr (x :: xs) =>
    "[\n" ++ stringifyItems (ind ++ "  ") x xs ++ "\n" ++ ind ++ "]"
  | Json.obj [] => "\x7b\x7d"
  | Json.obj (f :: fs) =>
    "\x7b\n" ++ stringifyFields (ind ++ "  ") f fs ++ "\n" ++ ind ++ "\x7d"
termination_by j => sizeOf j

def stringifyItems (ind : String) : Json → List Json → String
  | x, [] => ind ++ stringify2 ind x
  | x, y :: ys => ind ++ stringify2 ind x ++ ",\n" ++ stringifyItems ind y ys
termination_by x ys => sizeOf x + sizeOf ys

def stringifyFields (ind : String) : String × Json → List (String × Json) → String
  | (k, v), [] => ind ++ quoteJsonStr k ++ ": " ++ stringify2 ind v
  | (k, v), f :: fs =>
    ind ++ quoteJsonStr k ++ ": " ++ stringify2 ind v ++ ",\n" ++ stringifyFields ind f fs
termination_by f fs => sizeOf f + sizeOf fs

end

/-! ## The translation route
(`src/hs-plus/hs-facebook-ads/src/app/api/translate/route.ts`) -/

/-- The destructured translation request body: `ads` and
`targetLanguage` are arbitrary JSON values or absent. -/
structure TranslateBody where
  ads : Option Json
  targetLanguage : Option Json

/-- Each `NextResponse.json(...)` return of the translation route.  A
200 carries the parsed `ads` array verbatim (the route performs no
normalization), so its elements are raw JSON values. -/
inductive TransResult where
  /-- 200 `{ads}` -/
  | ok (ads : List Json)
  /-- 400 `{error}` -/
  | badRequest (error : String)
  /-- 500 `{error}` -/
  | serverError (error : String)
  /-- 502 `{error, raw}` -/
  | parseFail (error : String) (raw : String)
deriving Repr

def TransResult.status : TransResult → Nat
  | .ok _ => 200
  | .badRequest _ => 400
  | .serverError _ => 500
  | .parseFail .. => 502

def TransResult.okAds? : TransResult → Option (List Json)
  | .ok ads => some ads
  | _ => none

/-- The network environment of one translation request. -/
structure TransEnv where
  apiKey : Option String
  complete : String → String → Except String (Option String)

/-- `!Array.isArray(ads)`. -/
def adsIsArray (o : Option Json) : Bool :=
  match o with
  | some (Json.arr _) => true
  | _ => false

/-- Truthiness of the destructured `targetLanguage`. -/
def tlTruthy (o : Option Json) : Bool :=
  match o with
  | some j => truthy j
  | none => false

/-- The translation prompt (route.ts line 24). -/
def transPrompt (ads : Json) (targetLanguage : Json) : String :=
  "Translate each ad to " ++ jsToString targetLanguage ++
  ". Keep the persuasive style and emojis. Keep CTA short and natural for " ++
  jsToString targetLanguage ++
  ". Return JSON with key \"ads\" as an array of \x7btitle, description, cta\x7d.\n\nAds to translate:\n" ++
  stringify2 "" ads

/-- The translation system message (route.ts line 29). -/
def transSystemMsg : String := "You output strictly the requested JSON and nothing else."

/-- `result` extraction (route.ts lines 62-66): strict parse, then
`parsed?.ads` if it is an array; anything else (including a parse
error, swallowed by the empty catch) leaves `[]`. -/
def transExtract (content : String) : List Json :=
  match Json.parse content with
  | some j =>
    match getProp j "ads" with
    | some (Json.arr xs) => xs
    | _ => []
  | none => []

/-- The route from the received completion text onwards (lines 61-71). -/
def translateAfterContent (content : String) : TransResult :=
  match transExtract content with
  | [] => TransResult.parseFail "Neveljaven JSON iz OpenAI." content
  | xs => TransResult.ok xs

/-- The whole translation route, returning the HTTP result and the
completion call made (if any). -/
def translatePOST (b : TranslateBody) (env : TransEnv) :
    TransResult × Option (String × String) :=
  if ¬ adsIsArray b.ads ∨ ¬ tlTruthy b.targetLanguage then
    (TransResult.badRequest "Manjkajo podatki: ads ali targetLanguage.", none)
  else if strFalsy env.apiKey then
    (TransResult.serverError "Manjka okoljska spremenljivka OPENAI_API_KEY.", none)
  else
    let prompt := transPrompt (b.ads.getD Json.null) (b.targetLanguage.getD Json.null)
    match env.complete transSystemMsg prompt with
    | Except.error msg => (TransResult.serverError msg, some (transSystemMsg, prompt))
    | Except.ok c =>
      (translateAfterContent (contentText c), some (transSystemMsg, prompt))

/-! ## Helper lemmas -/

theorem coerceItem_ok_trimmed {x : Json} {a : AdItem}
    (h : coerceItem x = Except.ok a) :
    jsTrim a.title = a.title ∧ jsTrim a.description = a.description ∧
      jsTrim a.cta = a.cta := by
  cases x with
  | null => simp [coerceItem] at h
  | bool b =>
    rw [show coerceItem (Json.bool b) = Except.ok
      ⟨jsTrim (jsToString (jsOrEmptyStr (getProp (Json.bool b) "title"))),
       jsTrim (jsToString (jsOrEmptyStr (getProp (Json.bool b) "description"))),
       jsTrim (jsToString (jsOrEmptyStr (getProp (Json.bool b) "cta")))⟩ from rfl] at h
    injection h with h
    subst h
    exact ⟨jsTrim_idem _, jsTrim_idem _, jsTrim_idem _⟩
  | num lex =>
    rw [show coerceItem (Json.num lex) = Except.ok
      ⟨jsTrim (jsToString (jsOrEmptyStr (getProp (Json.num lex) "title"))),
       jsTrim (jsToString (jsOrEmptyStr (getProp (Json.num lex) "description"))),
       jsTrim (jsToString (jsOrEmptyStr (getProp (Json.num lex) "cta")))⟩ from rfl] at h
    injection h with h
    subst h
    exact ⟨jsTrim_idem _, jsTrim_idem _, jsTrim_idem _⟩
  | str s =>
    rw [show coerceItem (Json.str s) = Except.ok
      ⟨jsTrim (jsToString (jsOrEmptyStr (getProp (Json.str s) "title"))),
       jsTrim (jsToString (jsOrEmptyStr (getProp (Json.str s) "description"))),
       jsTrim (jsToString (jsOrEmptyStr (getProp (Json.str s) "cta")))⟩ from rfl] at h
    injection h with h
    subst h
    exact ⟨jsTrim_idem _, jsTrim_idem _, jsTrim_idem _⟩
  | arr xs =>
    rw [show coerceItem (Json.arr xs) = Except.ok
      ⟨jsTrim (jsToString (jsOrEmptyStr (getProp (Json.arr xs) "title"))),
       jsTrim (jsToString (jsOrEmptyStr (getProp (Json.arr xs) "description"))),
       jsTrim (jsToString (jsOrEmptyStr (getProp (Json.arr xs) "cta")))⟩ from rfl] at h
    injection h with h
    subst h
    exact ⟨jsTrim_idem _, jsTrim_idem _, jsTrim_idem _⟩
  | obj fs =>
    rw [show coerceItem (Json.obj fs) = Except.ok
      ⟨jsTrim (jsToString (jsOrEmptyStr (getProp (Json.obj fs) "title"))),
       jsTrim (jsToString (jsOrEmptyStr (getProp (Json.obj fs) "description"))),
       jsTrim (jsToString (jsOrEmptyStr (getProp (Json.obj fs) "cta")))⟩ from rfl] at h
    injection h with h
    subst h
    exact ⟨jsTrim_idem _, jsTrim_idem _, jsTrim_idem _⟩

theorem coerceAll_ok_mem {xs : List Json} {ys : List AdItem}
    (h : coerceAll xs = Except.ok ys) :
    ∀ a ∈ ys, ∃ x, coerceItem x = Except.ok a := by
  induction xs generalizing ys with
  | nil =>
    simp only [coerceAll] at h
    injection h with h
    subst h
    simp
  | cons x xs ih =>
    simp only [coerceAll] at h
    cases hx : coerceItem x with
    | error e => rw [hx] at h; exact absurd h (by simp)
    | ok a0 =>
      rw [hx] at h
      cases hr : coerceAll xs with
      | error e => rw [hr] at h; exact absurd h (by simp)
      | ok rest =>
        rw [hr] at h
        injection h with h
        subst h
        intro a ha
        rcases List.mem_cons.mp ha with h1 | h2
        · exact ⟨x, h1 ▸ hx⟩
        · exact ih hr a h2

theorem coerceAll_ok_length {xs : List Json} {ys : List AdItem}
    (h : coerceAll xs = Except.ok ys) : ys.length = xs.length := by
  induction xs generalizing ys with
  | nil =>
    simp only [coerceAll] at h
    injection h with h
    subst h
    rfl
  | cons x xs ih =>
    simp only [coerceAll] at h
    cases hx : coerceItem x with
    | error e => rw [hx] at h; exact absurd h (by simp)
    | ok a0 =>
      rw [hx] at h
      cases hr : coerceAll xs with
      | error e => rw [hr] at h; exact absurd h (by simp)
      | ok rest =>
        rw [hr] at h
        injection h with h
        subst h
        simpa using ih hr

/-- Every route outcome is a 400, a 500, or the post-completion stage
applied to the trimmed completion text, with the scraped `h1`/`meta`. -/
theorem generatePOST_result_cases (b : GenerateBody) (env : GenEnv) :
    (∃ e, (generatePOST b env).1 = GenResult.badRequest e) ∨
    (∃ e, (generatePOST b env).1 = GenResult.serverError e) ∨
    (∃ h1 meta content,
      (generatePOST b env).1 = generateAfterContent b h1 meta content) := by
  unfold generatePOST
  split
  · exact Or.inl ⟨_, rfl⟩
  · split
    · exact Or.inr (Or.inl ⟨_, rfl⟩)
    · split
      · exact Or.inr (Or.inl ⟨_, rfl⟩)
      · split
        · exact Or.inr (Or.inl ⟨_, rfl⟩)
        · exact Or.inr (Or.inr ⟨_, _, _, rfl⟩)

/-- Shape of a 200 from the post-completion stage: the `ads` list is
`items.filter adTruthy` for the coerced first-3 items, has exactly 3
elements, and each element is field-trimmed and truthy. -/
theorem generateAfterContent_200 {b : GenerateBody} {h1 meta : Option String}
    {content : String}
    (h : (generateAfterContent b h1 meta content).status = 200) :
    ∃ ads, generateAfterContent b h1 meta content =
        GenResult.ok b.url h1 meta b.variantOf.isSome ads ∧
      ads.length = 3 ∧
      ∀ a ∈ ads, adTruthy a = true ∧ jsTrim a.title = a.title ∧
        jsTrim a.description = a.description ∧ jsTrim a.cta = a.cta := by
  unfold generateAfterContent at h ⊢
  cases hp : parsedAds content with
  | none => rw [hp] at h; simp [GenResult.status] at h
  | some ps =>
    rw [hp] at h
    dsimp only at h ⊢
    cases hc : coerceAll (ps.take 3) with
    | error e => rw [hc] at h; simp [GenResult.status] at h
    | ok items =>
      rw [hc] at h
      dsimp only at h ⊢
      by_cases hlen : (items.filter adTruthy).length < 3
      · rw [if_pos hlen] at h; simp [GenResult.status] at h
      · rw [if_neg hlen] at h ⊢
        refine ⟨items.filter adTruthy, rfl, ?_, ?_⟩
        · have hle : (items.filter adTruthy).length ≤ items.length :=
            List.length_filter_le _ _
          have h3 : items.length ≤ 3 := by
            rw [coerceAll_ok_length hc]
            exact (List.length_take_le 3 ps)
          omega
        · intro a ha
          have htr : adTruthy a = true := List.of_mem_filter ha
          have hmem : a ∈ items := List.mem_of_mem_filter ha
          obtain ⟨x, hx⟩ := coerceAll_ok_mem hc a hmem
          obtain ⟨t1, t2, t3⟩ := coerceItem_ok_trimmed hx
          exact ⟨htr, t1, t2, t3⟩

/-- When the body passes validation, the scrape (if any) succeeds with
`(h1, meta)`, the API key is set, and the completion returns text `s`,
the generation route's response is the post-completion stage applied to
the trimmed text. -/
theorem generatePOST_reaches_content {b : GenerateBody} {env : GenEnv} {s : String}
    {h1 meta : Option String}
    (hvalid : ¬ (strFalsy b.url ∧ b.variantOf = none))
    (hscrape : strFalsy b.url = false → env.scrape (b.url.getD "") = Except.ok (h1, meta))
    (hnoscrape : strFalsy b.url = true → h1 = none ∧ meta = none)
    (hkey : strFalsy env.apiKey = false)
    (hcomp : ∀ sys usr, env.complete sys usr = Except.ok (some s)) :
    (generatePOST b env).1 = generateAfterContent b h1 meta (jsTrim s) := by
  unfold generatePOST
  rw [if_neg hvalid]
  by_cases hurl : strFalsy b.url = true
  · obtain ⟨e1, e2⟩ := hnoscrape hurl
    subst e1
    subst e2
    have hg : genScrapedUrl b = none := by simp [genScrapedUrl, hurl]
    rw [hg]
    dsimp only
    rw [if_neg (by simp [hkey])]
    rw [hcomp]
    rfl
  · have hurl' : strFalsy b.url = false := by simpa using hurl
    have hg : genScrapedUrl b = some (b.url.getD "") := by simp [genScrapedUrl, hurl']
    rw [hg]
    dsimp only
    rw [hscrape hurl']
    dsimp only
    rw [if_neg (by simp [hkey])]
    rw [hcomp]
    rfl

/-- Same for the translation route. -/
theorem translatePOST_reaches_content {b : TranslateBody} {env : TransEnv} {s : String}
    (hads : adsIsArray b.ads = true) (htl : tlTruthy b.targetLanguage = true)
    (hkey : strFalsy env.apiKey = false)
    (hcomp : ∀ sys usr, env.complete sys usr = Except.ok (some s)) :
    (translatePOST b env).1 = translateAfterContent (jsTrim s) := by
  unfold translatePOST
  rw [if_neg (by simp [hads, htl])]
  rw [if_neg (by simp [hkey])]
  dsimp only
  rw [hcomp]
  rfl

theorem lookupLast_singleton (k : String) (v : Json) :
    lookupLast [(k, v)] k = some v := by
  simp [lookupLast]

theorem parsedAds_of_parse_arr {c : String} {xs : List Json}
    (hc : Json.parse c = some (Json.arr xs)) : parsedAds c = some xs := by
  unfold parsedAds strictParseAds
  rw [hc]

theorem parsedAds_of_parse_obj {c : String} {fs : List (String × Json)}
    {xs : List Json} (hc : Json.parse c = some (Json.obj fs))
    (hl : lookupLast fs "ads" = some (Json.arr xs)) : parsedAds c = some xs := by
  unfold parsedAds strictParseAds
  rw [hc]
  dsimp only [truthy, getProp]
  rw [hl]
  simp

theorem transExtract_of_parse_arr {c : String} {xs : List Json}
    (hc : Json.parse c = some (Json.arr xs)) : transExtract c = [] := by
  unfold transExtract
  rw [hc]
  dsimp only [getProp]

/-! ## Claims -/

/-- C1: every generation request that the route answers with HTTP 200
has a body whose ads field contains exactly 3 AdItems, each with title,
description, and cta non-empty after trimming. -/
theorem C1_generate_200_three_valid_ads (b : GenerateBody) (env : GenEnv)
    (h : ((generatePOST b env).1).status = 200) :
    ∃ ads, ((generatePOST b env).1).okAds? = some ads ∧ ads.length = 3 ∧
      ∀ a ∈ ads, jsTrim a.title ≠ "" ∧ jsTrim a.description ≠ "" ∧
        jsTrim a.cta ≠ "" := by
  rcases generatePOST_result_cases b env with ⟨e, he⟩ | ⟨e, he⟩ | ⟨h1, meta, content, he⟩
  · rw [he] at h; simp [GenResult.status] at h
  · rw [he] at h; simp [GenResult.status] at h
  · rw [he] at h ⊢
    obtain ⟨ads, hok, hlen, hall⟩ := generateAfterContent_200 h
    rw [hok]
    refine ⟨ads, rfl, hlen, ?_⟩
    intro a ha
    obtain ⟨htr, t1, t2, t3⟩ := hall a ha
    have hne : a.title ≠ "" ∧ a.description ≠ "" ∧ a.cta ≠ "" := by
      simpa [adTruthy] using htr
    exact ⟨by rw [t1]; exact hne.1, by rw [t2]; exact hne.2.1, by rw [t3]; exact hne.2.2⟩

/-- A generation request and environment that produce a 200. -/
def okGenBody : GenerateBody := ⟨some "http://x", none, none, none⟩

def okGenContent : String :=
  "\x7b\"ads\":[\x7b\"title\":\"a\",\"description\":\"b\",\"cta\":\"c\"\x7d,\x7b\"title\":\"d\",\"description\":\"e\",\"cta\":\"f\"\x7d,\x7b\"title\":\"g\",\"description\":\"h\",\"cta\":\"i\"\x7d]\x7d"

def okGenEnv : GenEnv :=
  ⟨fun _ => Except.ok (some "H", some "M"), some "key",
   fun _ _ => Except.ok (some okGenContent)⟩

set_option maxRecDepth 100000 in
/-- Witness for C1 on a concrete 200 run. -/
theorem C1_generate_200_three_valid_ads_witness :
    ∃ ads, ((generatePOST okGenBody okGenEnv).1).okAds? = some ads ∧
      ads.length = 3 ∧
      ∀ a ∈ ads, jsTrim a.title ≠ "" ∧ jsTrim a.description ≠ "" ∧
        jsTrim a.cta ≠ "" :=
  C1_generate_200_three_valid_ads okGenBody okGenEnv (by decide)

/-- An ad-shaped JSON object. -/
def adObj (t d c : String) : Json :=
  Json.obj [("title", Json.str t), ("description", Json.str d), ("cta", Json.str c)]

/-- A well-formed translation request body with one input ad. -/
def transReqBody : TranslateBody :=
  ⟨some (Json.arr [adObj "t" "d" "c"]), some (Json.str "German")⟩

/-- A translation environment whose completion returns `content`. -/
def constEnvT (content : String) : TransEnv :=
  ⟨some "key", fun _ _ => Except.ok (some content)⟩

/-- A generation environment whose completion returns `content`. -/
def genEnvWith (content : String) : GenEnv :=
  ⟨fun _ => Except.ok (some "H", some "M"), some "key",
   fun _ _ => Except.ok (some content)⟩

/-- An upstream translation payload whose item has an untrimmed title
and an empty description. -/
def rawItemContent : String :=
  "\x7b\"ads\":[\x7b\"title\":\" A \",\"description\":\"\",\"cta\":\"ok\"\x7d]\x7d"

def badItem : Json :=
  Json.obj [("title", Json.str " A "), ("description", Json.str ""), ("cta", Json.str "ok")]

set_option maxRecDepth 100000 in
/-- C2 counterexample: a 200 translation response can contain an item
with an untrimmed title and an empty description: the route does not
apply the Normalizer's coerce-trim-drop contract. -/
theorem C2_counterexample :
    (translatePOST transReqBody (constEnvT rawItemContent)).1 =
      TransResult.ok [badItem] ∧
    getProp badItem "description" = some (Json.str "") ∧
    getProp badItem "title" = some (Json.str " A ") ∧
    jsTrim " A " ≠ " A " :=
  ⟨rfl, rfl, rfl, by decide⟩

/-- C2 amended: the translation route applies no normalization at all:
a 200 response returns the strict-parsed `ads` array verbatim (no field
coercion, trimming, or dropping); its only structural guarantee is that
the list is non-empty. -/
theorem C2_amended_no_normalization (c : String) (ads : List Json)
    (h : translateAfterContent c = TransResult.ok ads) :
    ads ≠ [] ∧ transExtract c = ads ∧
    ∃ j, Json.parse c = some j ∧ getProp j "ads" = some (Json.arr ads) := by
  unfold translateAfterContent at h
  cases ht : transExtract c with
  | nil =>
    rw [ht] at h
    exact absurd h (by simp)
  | cons x xs =>
    rw [ht] at h
    dsimp only at h
    injection h with h2
    subst h2
    refine ⟨by simp, rfl, ?_⟩
    unfold transExtract at ht
    cases hj : Json.parse c with
    | none => rw [hj] at ht; exact absurd ht (by simp)
    | some j =>
      rw [hj] at ht
      dsimp only at ht
      refine ⟨j, rfl, ?_⟩
      cases hg : getProp j "ads" with
      | none => rw [hg] at ht; exact absurd ht (by simp)
      | some v =>
        rw [hg] at ht
        cases v with
        | arr ys =>
          dsimp only at ht
          rw [ht]
        | null => dsimp only at ht; exact absurd ht (by simp)
        | bool b2 => dsimp only at ht; exact absurd ht (by simp)
        | num lex => dsimp only at ht; exact absurd ht (by simp)
        | str s2 => dsimp only at ht; exact absurd ht (by simp)
        | obj fs => dsimp only at ht; exact absurd ht (by simp)

set_option maxRecDepth 100000 in
/-- Witness for the amended C2 on a concrete 200 run. -/
theorem C2_amended_no_normalization_witness :
    ([badItem] : List Json) ≠ [] ∧ transExtract rawItemContent = [badItem] ∧
    ∃ j, Json.parse rawItemContent = some j ∧
      getProp j "ads" = some (Json.arr [badItem]) :=
  C2_amended_no_normalization rawItemContent [badItem] rfl

/-- A bare-array upstream payload and its wrapped counterpart. -/
def bareContent : String :=
  "[\x7b\"title\":\"a\",\"description\":\"b\",\"cta\":\"c\"\x7d]"

def wrappedContent : String :=
  "\x7b\"ads\":[\x7b\"title\":\"a\",\"description\":\"b\",\"cta\":\"c\"\x7d]\x7d"

def abcItem : Json := adObj "a" "b" "c"

set_option maxRecDepth 100000 in
/-- C3 counterexample: the translation route 502s on a bare-array
completion but 200s on the wrapped `{ads: [...]}` form: the two shapes
are not accepted identically. -/
theorem C3_counterexample :
    (translatePOST transReqBody (constEnvT bareContent)).1 =
      TransResult.parseFail "Neveljaven JSON iz OpenAI." bareContent ∧
    (translatePOST transReqBody (constEnvT wrappedContent)).1 =
      TransResult.ok [abcItem] :=
  ⟨rfl, rfl⟩

/-- C3 amended: the bare-array tolerance belongs to the generation
route: a completion text parsing as a bare array is handled by the
generation route exactly as one parsing as `{ads: [...]}` with the same
elements; the translation route rejects bare arrays with its 502 parse
failure. -/
theorem C3_amended_bare_array_tolerance :
    (∀ (b : GenerateBody) (h1 meta : Option String) (c c' : String) (xs : List Json),
      Json.parse c = some (Json.arr xs) →
      Json.parse c' = some (Json.obj [("ads", Json.arr xs)]) →
      generateAfterContent b h1 meta c = generateAfterContent b h1 meta c') ∧
    (∀ (c : String) (xs : List Json), Json.parse c = some (Json.arr xs) →
      translateAfterContent c =
        TransResult.parseFail "Neveljaven JSON iz OpenAI." c) := by
  constructor
  · intro b h1 meta c c' xs hc hc'
    have pc : parsedAds c = some xs := parsedAds_of_parse_arr hc
    have pc' : parsedAds c' = some xs :=
      parsedAds_of_parse_obj hc' (lookupLast_singleton "ads" (Json.arr xs))
    unfold generateAfterContent
    rw [pc, pc']
  · intro c xs hc
    unfold translateAfterContent
    rw [transExtract_of_parse_arr hc]

set_option maxRecDepth 100000 in
/-- Witness for the amended C3 on concrete payloads. -/
theorem C3_amended_bare_array_tolerance_witness :
    generateAfterContent okGenBody none none bareContent =
      generateAfterContent okGenBody none none wrappedContent ∧
    translateAfterContent bareContent =
      TransResult.parseFail "Neveljaven JSON iz OpenAI." bareContent :=
  ⟨C3_amended_bare_array_tolerance.1 okGenBody none none bareContent wrappedContent
     [abcItem] rfl rfl,
   C3_amended_bare_array_tolerance.2 bareContent [abcItem] rfl⟩

/-- C4: an upstream completion from which the generation Normalizer
recovers exactly 2 valid items makes the generation route answer 502
with those 2 items; a translation completion yielding 2 items makes the
translation route answer 200. -/
theorem C4_two_valid_items (b : GenerateBody) (env : GenEnv) (s : String)
    (h1 meta : Option String) (ps : List Json) (items : List AdItem) (a1 a2 : AdItem)
    (bt : TranslateBody) (envt : TransEnv) (st : String) (x1 x2 : Json)
    (hvalid : ¬ (strFalsy b.url ∧ b.variantOf = none))
    (hscrape : strFalsy b.url = false → env.scrape (b.url.getD "") = Except.ok (h1, meta))
    (hnoscrape : strFalsy b.url = true → h1 = none ∧ meta = none)
    (hkey : strFalsy env.apiKey = false)
    (hcomp : ∀ sys usr, env.complete sys usr = Except.ok (some s))
    (hp : parsedAds (jsTrim s) = some ps)
    (hc : coerceAll (ps.take 3) = Except.ok items)
    (hf : items.filter adTruthy = [a1, a2])
    (hads : adsIsArray bt.ads = true) (htl : tlTruthy bt.targetLanguage = true)
    (hkeyt : strFalsy envt.apiKey = false)
    (hcompt : ∀ sys usr, envt.complete sys usr = Except.ok (some st))
    (hx : transExtract (jsTrim st) = [x1, x2]) :
    (generatePOST b env).1 =
      GenResult.tooFew "Prejetih je premalo oglasov." [a1, a2] ∧
    (translatePOST bt envt).1 = TransResult.ok [x1, x2] := by
  constructor
  · rw [generatePOST_reaches_content hvalid hscrape hnoscrape hkey hcomp]
    unfold generateAfterContent
    rw [hp]
    dsimp only
    rw [hc]
    dsimp only
    rw [hf]
    simp
  · rw [translatePOST_reaches_content hads htl hkeyt hcompt]
    unfold translateAfterContent
    rw [hx]

/-- The spec's example payload: 3 items, the third missing `cta`. -/
def twoValidContent : String :=
  "\x7b\"ads\":[\x7b\"title\":\"A\",\"description\":\"B\",\"cta\":\"C\"\x7d,\x7b\"title\":\"D\",\"description\":\"E\",\"cta\":\"F\"\x7d,\x7b\"title\":\"G\",\"description\":\"H\"\x7d]\x7d"

/-- A translation payload with 2 items. -/
def twoItemsContent : String :=
  "\x7b\"ads\":[\x7b\"title\":\"a\",\"description\":\"b\",\"cta\":\"c\"\x7d,\x7b\"title\":\"d\",\"description\":\"e\",\"cta\":\"f\"\x7d]\x7d"

set_option maxRecDepth 400000 in
/-- Witness for C4 on the spec's example payloads. -/
theorem C4_two_valid_items_witness :
    (generatePOST okGenBody (genEnvWith twoValidContent)).1 =
      GenResult.tooFew "Prejetih je premalo oglasov."
        [⟨"A", "B", "C"⟩, ⟨"D", "E", "F"⟩] ∧
    (translatePOST transReqBody (constEnvT twoItemsContent)).1 =
      TransResult.ok [adObj "a" "b" "c", adObj "d" "e" "f"] :=
  C4_two_valid_items okGenBody (genEnvWith twoValidContent) twoValidContent
    (some "H") (some "M")
    [adObj "A" "B" "C", adObj "D" "E" "F",
     Json.obj [("title", Json.str "G"), ("description", Json.str "H")]]
    [⟨"A", "B", "C"⟩, ⟨"D", "E", "F"⟩, ⟨"G", "H", ""⟩]
    ⟨"A", "B", "C"⟩ ⟨"D", "E", "F"⟩
    transReqBody (constEnvT twoItemsContent) twoItemsContent
    (adObj "a" "b" "c") (adObj "d" "e" "f")
    (by decide) (fun _ => rfl) (by intro hh; exact absurd hh (by decide))
    (by decide) (fun _ _ => rfl) rfl rfl rfl
    (by decide) (by decide) (by decide) (fun _ _ => rfl) rfl

set_option maxRecDepth 100000 in
/-- C5 counterexample: on the text `[]` the strict tier succeeds with
zero items, yet the route signals the insufficient-result failure
(502 with `items`), not a parse failure (502 with `raw`). -/
theorem C5_counterexample :
    strictParseAds "[]" = some [] ∧
    generateAfterContent okGenBody none none "[]" =
      GenResult.tooFew "Prejetih je premalo oglasov." [] :=
  ⟨rfl, rfl⟩

/-- C5 amended: the tiers apply in order: strict parse (a parsed array
used directly, else a parsed object's ads array); on strict-tier
failure, the first-`[`-to-last-`]` substring parsed as an array; if the
strict tier fails and the fallback fails or yields zero items, a parse
failure is signalled.  A strict-tier success with zero items instead
flows on to normalization and is reported as the insufficient-result
failure. -/
theorem C5_amended_parse_tiers (b : GenerateBody) (h1 meta : Option String) :
    (∀ c xs, Json.parse c = some (Json.arr xs) → parsedAds c = some xs) ∧
    (∀ c fs xs, Json.parse c = some (Json.obj fs) →
      lookupLast fs "ads" = some (Json.arr xs) → parsedAds c = some xs) ∧
    (∀ c, strictParseAds c = none → extractArrayFallback c ≠ [] →
      parsedAds c = some (extractArrayFallback c)) ∧
    (∀ c, strictParseAds c = none → extractArrayFallback c = [] →
      generateAfterContent b h1 meta c =
        GenResult.parseFail "Neveljaven JSON iz OpenAI." c) ∧
    (∀ c xs, strictParseAds c = some xs → parsedAds c = some xs) := by
  refine ⟨?_, ?_, ?_, ?_, ?_⟩
  · intro c xs hc
    exact parsedAds_of_parse_arr hc
  · intro c fs xs hc hl
    exact parsedAds_of_parse_obj hc hl
  · intro c hs hf
    unfold parsedAds
    rw [hs]
    dsimp only
    cases he : extractArrayFallback c with
    | nil => exact absurd he hf
    | cons x xs => rfl
  · intro c hs hf
    unfold generateAfterContent parsedAds
    rw [hs]
    dsimp only
    rw [hf]
  · intro c xs hs
    unfold parsedAds
    rw [hs]

set_option maxRecDepth 100000 in
/-- Witness for the amended C5: tier 1 on a bare array, and the parse
failure when both tiers fail. -/
theorem C5_amended_parse_tiers_witness :
    parsedAds bareContent = some [abcItem] ∧
    generateAfterContent okGenBody none none "no json here" =
      GenResult.parseFail "Neveljaven JSON iz OpenAI." "no json here" :=
  ⟨(C5_amended_parse_tiers okGenBody none none).1 bareContent [abcItem] rfl,
   (C5_amended_parse_tiers okGenBody none none).2.2.2.1 "no json here" rfl rfl⟩

/-- An environment whose completion text carries surrounding whitespace
and fails every parse tier. -/
def wsJunkEnv : GenEnv :=
  ⟨fun _ => Except.ok (none, none), some "key",
   fun _ _ => Except.ok (some " not-json ")⟩

set_option maxRecDepth 100000 in
/-- C6 counterexample: the 502's raw field is the trimmed completion
text, not the original upstream response text. -/
theorem C6_counterexample :
    (generatePOST okGenBody wsJunkEnv).1 =
      GenResult.parseFail "Neveljaven JSON iz OpenAI." "not-json" ∧
    ("not-json" : String) ≠ " not-json " :=
  ⟨rfl, by decide⟩

/-- C6 amended: a completion text failing every parse tier makes the
route answer 502 with raw equal to the trimmed upstream text (the route
trims on receipt; the two coincide when the text has no leading or
trailing whitespace). -/
theorem C6_amended_raw_is_trimmed :
    (∀ (b : GenerateBody) (env : GenEnv) (s : String) (h1 meta : Option String),
      ¬ (strFalsy b.url ∧ b.variantOf = none) →
      (strFalsy b.url = false → env.scrape (b.url.getD "") = Except.ok (h1, meta)) →
      (strFalsy b.url = true → h1 = none ∧ meta = none) →
      strFalsy env.apiKey = false →
      (∀ sys usr, env.complete sys usr = Except.ok (some s)) →
      parsedAds (jsTrim s) = none →
      (generatePOST b env).1 =
        GenResult.parseFail "Neveljaven JSON iz OpenAI." (jsTrim s)) ∧
    (∀ (b : TranslateBody) (env : TransEnv) (s : String),
      adsIsArray b.ads = true → tlTruthy b.targetLanguage = true →
      strFalsy env.apiKey = false →
      (∀ sys usr, env.complete sys usr = Except.ok (some s)) →
      transExtract (jsTrim s) = [] →
      (translatePOST b env).1 =
        TransResult.parseFail "Neveljaven JSON iz OpenAI." (jsTrim s)) := by
  constructor
  · intro b env s h1 meta hvalid hscrape hnoscrape hkey hcomp hparse
    rw [generatePOST_reaches_content hvalid hscrape hnoscrape hkey hcomp]
    unfold generateAfterContent
    rw [hparse]
  · intro b env s hads htl hkey hcomp hx
    rw [translatePOST_reaches_content hads htl hkey hcomp]
    unfold translateAfterContent
    rw [hx]

/-- A variant-only generation body (no scrape is made). -/
def variantBody : GenerateBody := ⟨none, none, none, some ⟨"T", "D", "C"⟩⟩

/-- An environment whose completion text is unparsable and untrimmed. -/
def oopsEnv : GenEnv :=
  ⟨fun _ => Except.error "no scrape", some "key",
   fun _ _ => Except.ok (some " oops ")⟩

set_option maxRecDepth 100000 in
/-- Witness for the amended C6 on both routes. -/
theorem C6_amended_raw_is_trimmed_witness :
    (generatePOST variantBody oopsEnv).1 =
      GenResult.parseFail "Neveljaven JSON iz OpenAI." (jsTrim " oops ") ∧
    (translatePOST transReqBody (constEnvT " oops ")).1 =
      TransResult.parseFail "Neveljaven JSON iz OpenAI." (jsTrim " oops ") :=
  ⟨C6_amended_raw_is_trimmed.1 variantBody oopsEnv " oops " none none
     (by decide) (by intro hh; exact absurd hh (by decide)) (fun _ => ⟨rfl, rfl⟩)
     (by decide) (fun _ _ => rfl) rfl,
   C6_amended_raw_is_trimmed.2 transReqBody (constEnvT " oops ") " oops "
     (by decide) (by decide) (by decide) (fun _ _ => rfl) rfl⟩

set_option maxRecDepth 100000 in
/-- C7 counterexample: a translation request with 1 input ad can be
answered 200 with 2 ads: no upper bound by the input count is
enforced. -/
theorem C7_counterexample :
    (translatePOST transReqBody (constEnvT twoItemsContent)).1 =
      TransResult.ok [adObj "a" "b" "c", adObj "d" "e" "f"] ∧
    transReqBody.ads = some (Json.arr [adObj "t" "d" "c"]) ∧
    ¬ ([adObj "a" "b" "c", adObj "d" "e" "f"].length ≤
        [adObj "t" "d" "c"].length) :=
  ⟨rfl, rfl, by decide⟩

/-- C7 amended: a 200 translation response contains at least 1 ad; no
upper bound in terms of the request's ad count is enforced. -/
theorem C7_amended_at_least_one (b : TranslateBody) (env : TransEnv) (ads : List Json)
    (h : (translatePOST b env).1 = TransResult.ok ads) : 1 ≤ ads.length := by
  unfold translatePOST at h
  split at h
  · simp at h
  · split at h
    · simp at h
    · dsimp only at h
      split at h
      · simp at h
      · rename_i c hceq
        dsimp only at h
        unfold translateAfterContent at h
        cases hx : transExtract (contentText c) with
        | nil => rw [hx] at h; simp at h
        | cons x xs =>
          rw [hx] at h
          dsimp only at h
          injection h with h2
          subst h2
          simp

set_option maxRecDepth 100000 in
/-- Witness for the amended C7 on a concrete 200 run. -/
theorem C7_amended_at_least_one_witness :
    1 ≤ ([adObj "a" "b" "c", adObj "d" "e" "f"] : List Json).length :=
  C7_amended_at_least_one transReqBody (constEnvT twoItemsContent)
    [adObj "a" "b" "c", adObj "d" "e" "f"] rfl

/-- C8: buildPrompt branches in strict priority order: if variantOf is
present it produces the variation prompt regardless of customPrompt;
else if customPrompt is non-empty after trimming it prepends the custom
instruction verbatim followed by the shared style guidelines; else it
produces the generic copywriter prompt with the shared style
guidelines. -/
theorem C8_buildPrompt_priority :
    (∀ url t m cp1 cp2 v lang,
      buildPrompt url t m cp1 (some v) lang = buildPrompt url t m cp2 (some v) lang) ∧
    (∀ url t m cp v lang,
      buildPrompt url t m cp (some v) lang =
        "You are a performance Facebook ads copywriter.\nGenerate EXACTLY 3 similar VARIATIONS to the given base ad, keeping the same CTA. Language: " ++
        lang ++ ".\n\nBase ad:\n" ++
        (v.title ++ "\n\n" ++ v.description ++ "\n\nCTA: " ++ v.cta) ++
        "\n\nGuidelines:\n- Keep the core benefits and style (emoji title + bullet-like short lines)\n- Avoid repeating the exact same phrases; rephrase creatively\n- Keep CTA identical to the base ad\x27s CTA\n- Respect the previous style rules (max title length, 3â€“6 short lines, no URLs)\n\nReturn a JSON object with key \"ads\" whose value is an array of items with keys: title, description, cta. Example:\n\x7b\"ads\":[\x7b\"title\":\"...\",\"description\":\"...\",\"cta\":\"" ++
        v.cta ++ "\"\x7d]]\x7d") ∧
    (∀ url t m cp lang, cpActive (some cp) = true →
      buildPrompt url t m (some cp) none lang =
        cp ++ "\n\nGenerate EXACTLY 3 distinct Facebook ad variations in " ++ lang ++
        ". Output strictly JSON.\n" ++ sharedGuidelines url t m lang) ∧
    (∀ url t m cp lang, cpActive cp = false →
      buildPrompt url t m cp none lang =
        "You are a performance Facebook ads copywriter.\nGenerate EXACTLY 3 distinct Facebook ad variations.\n Language: " ++
        lang ++ ". Be persuasive, concise, and compliant. Output JSON only.\n\n" ++
        sharedGuidelines url t m lang) := by
  refine ⟨fun _ _ _ _ _ _ _ => rfl, fun _ _ _ _ _ _ => rfl, ?_, ?_⟩
  · intro url t m cp lang h
    simp [buildPrompt, h]
  · intro url t m cp lang h
    simp [buildPrompt, h]

/-- Witness for C8: concrete instances of the custom-instruction branch
and of the variant branch's customPrompt-independence. -/
theorem C8_buildPrompt_priority_witness :
    buildPrompt "u" none none (some " Do X ") none "English" =
      " Do X " ++ "\n\nGenerate EXACTLY 3 distinct Facebook ad variations in " ++
      "English" ++ ". Output strictly JSON.\n" ++
      sharedGuidelines "u" none none "English" :=
  C8_buildPrompt_priority.2.2.1 "u" none none " Do X " "English" (by decide)

/-- C9: a generation request with neither url nor variantOf yields the
400 error response and makes no outbound call. -/
theorem C9_missing_url_and_variant (b : GenerateBody) (env : GenEnv)
    (hu : b.url = none) (hv : b.variantOf = none) :
    generatePOST b env =
      (GenResult.badRequest "Zahteva mora vsebovati \x27url\x27 ali \x27variantOf\x27.",
       ⟨none, none⟩) := by
  unfold generatePOST
  rw [if_pos]
  exact ⟨by simp [strFalsy, hu], hv⟩

/-- Witness for C9 at a concrete body and environment. -/
theorem C9_missing_url_and_variant_witness :
    generatePOST ⟨none, some "make ads", some "German", none⟩
        ⟨fun _ => Except.ok (some "H", some "M"), some "key",
         fun _ _ => Except.ok (some "x")⟩ =
      (GenResult.badRequest "Zahteva mora vsebovati \x27url\x27 ali \x27variantOf\x27.",
       ⟨none, none⟩) :=
  C9_missing_url_and_variant ⟨none, some "make ads", some "German", none⟩ _ rfl rfl

/-- When the generation route recorded a completion call, that call's
messages are the system message and built prompt for this body and some
scraped `h1`/`meta`. -/
theorem generatePOST_completed {b : GenerateBody} {env : GenEnv} {sys usr : String}
    (h : (generatePOST b env).2.completed = some (sys, usr)) :
    ∃ h1 meta, sys = genSystemMsg b.language ∧ usr = genPrompt b h1 meta := by
  unfold generatePOST at h
  split at h
  · simp [GenCalls.completed] at h
  · split at h
    · simp [GenCalls.completed] at h
    · split at h
      · simp [GenCalls.completed] at h
      · split at h <;>
        · simp only [GenCalls.completed, Option.some.injEq, Prod.mk.injEq] at h
          exact ⟨_, _, h.1.symm, h.2.symm⟩

/-- C10: when the request's language is absent or empty, the completion
call's system message and the built prompt both use the default target
language Slovenian. -/
theorem C10_default_language (b : GenerateBody) (env : GenEnv) (sys usr : String)
    (hlang : b.language = none ∨ b.language = some "")
    (h : (generatePOST b env).2.completed = some (sys, usr)) :
    sys = "You output strictly the requested JSON and nothing else. Respond ONLY in Slovenian. Do not use any other language." ∧
    ∃ h1 meta, usr =
      buildPrompt (jsOrStr b.url "") h1 meta b.customPrompt b.variantOf "Slovenian" := by
  have hdef : jsOrStr b.language "Slovenian" = "Slovenian" := by
    rcases hlang with h' | h' <;> simp [jsOrStr, h']
  obtain ⟨h1, meta, hs, hu⟩ := generatePOST_completed h
  constructor
  · rw [hs]
    unfold genSystemMsg
    rw [hdef]
    rfl
  · refine ⟨h1, meta, ?_⟩
    rw [hu]
    unfold genPrompt
    rw [hdef]

/-- Witness for C10: a concrete request with empty language. -/
theorem C10_default_language_witness :
    "You output strictly the requested JSON and nothing else. Respond ONLY in Slovenian. Do not use any other language." =
      "You output strictly the requested JSON and nothing else. Respond ONLY in Slovenian. Do not use any other language." ∧
    ∃ h1 meta,
      buildPrompt "http://x" (some "H") (some "M") none none "Slovenian" =
        buildPrompt (jsOrStr (some "http://x") "") h1 meta none none "Slovenian" :=
  C10_default_language ⟨some "http://x", none, some "", none⟩
    ⟨fun _ => Except.ok (some "H", some "M"), some "key",
     fun _ _ => Except.ok (some "x")⟩
    (genSystemMsg (some ""))
    (genPrompt ⟨some "http://x", none, some "", none⟩ (some "H") (some "M"))
    (Or.inr rfl) rfl

end FbAds
